import Mathlib

/-!
Verification of the supermarket sales EDA pipeline (`src/supermarket_eda.py`).

The program is a pandas dashboard: `load_data` normalizes columns and coerces
`total` to numeric (`errors="coerce"`, so unparseable cells become NaN), `main`
applies a date-range filter and three `isin` filters, and the `Dashboard`
methods compute group-by sums, idxmax extractions, a tail-window sum, a
title-case search, and a Pearson correlation matrix.  We embed the rows,
the filter pipeline and each aggregation as Lean functions and settle the
spec claims about them.  `none` in an `Option` field models pandas NaN;
functions that model pandas operations that raise on empty input return
`Option`, with `none` standing for the raised exception.
-/

set_option maxRecDepth 4000

/-- A transaction record as produced by `load_data`.  `total` and `rating` are
`Option ℚ`: `none` models NaN, the missing-value marker that
`pd.to_numeric(..., errors="coerce")` produces for unparseable cells.  Dates
are modelled as `Nat` day numbers (pandas timestamps are totally ordered). -/
structure Row where
  city : String
  product_line : String
  gender : String
  customer_type : String
  payment : String
  date : Nat
  total : Option ℚ
  rating : Option ℚ
deriving DecidableEq

/-- The user's Filter Selection: the three multiselect lists plus the inclusive
date range.  `dateRange = none` models a dataset with no `date` column, where
`main` skips the date filter entirely. -/
structure Selection where
  cities : List String
  products : List String
  genders : List String
  dateRange : Option (Nat × Nat)
deriving DecidableEq

/-- The date mask of `main` (line 150): `(df["date"] >= start) & (df["date"] <= end)`,
applied only when a `date` column exists. -/
def rowMatchesDate (sel : Selection) (r : Row) : Bool :=
  match sel.dateRange with
  | none => true
  | some (s, e) => decide (s ≤ r.date) && decide (r.date ≤ e)

/-- The categorical mask of `main` (lines 156-160):
`df["city"].isin(city_filter) & df["product_line"].isin(product_filter) & df["gender"].isin(gender_filter)`. -/
def rowMatchesCats (sel : Selection) (r : Row) : Bool :=
  sel.cities.contains r.city && sel.products.contains r.product_line &&
    sel.genders.contains r.gender

/-- The filter pipeline of `main`: the date filter is applied first
(line 150 reassigns `df`), then the conjunction of the three `isin` masks
(lines 156-160). -/
def filterDataset (sel : Selection) (rows : List Row) : List Row :=
  (rows.filter (rowMatchesDate sel)).filter (rowMatchesCats sel)

/-- Written from the spec's words for the refinement claim C2: one pass keeping
exactly the rows with city ∈ selected cities AND product_line ∈ selected
product lines AND gender ∈ selected genders AND (when a date column exists)
date in the inclusive range. -/
def filterSpec (sel : Selection) (rows : List Row) : List Row :=
  rows.filter (fun r =>
    sel.cities.contains r.city && sel.products.contains r.product_line &&
      sel.genders.contains r.gender && rowMatchesDate sel r)

/-- Contribution of one row to a pandas sum over `total`: NaN is skipped
(`skipna=True` is the default), i.e. contributes 0. -/
def contribution (r : Row) : ℚ := r.total.getD 0

/-- Embeds `df["total"].sum()` over a list of rows. -/
def sumTotal (rows : List Row) : ℚ := (rows.map contribution).sum

/-- Concrete instance for `filterDataset_eq_spec`: an empty city selection on a
one-row dataset gives the empty result. -/
def selEmptyCities : Selection :=
  { cities := [], products := ["Health"], genders := ["Male"], dateRange := none }

/-- A sample row. -/
def exRow1 : Row :=
  { city := "Yangon", product_line := "Health", gender := "Male",
    customer_type := "Member", payment := "Cash", date := 10,
    total := some 100, rating := some 9 }

/-- Lexicographic code-point comparison of character lists: the string order
Python and pandas use when sorting group keys. -/
def charListLt : List Char → List Char → Bool
  | [], [] => false
  | [], _ :: _ => true
  | _ :: _, [] => false
  | a :: as, b :: bs =>
    if a.toNat < b.toNat then true
    else if b.toNat < a.toNat then false
    else charListLt as bs

/-- Strict string comparison (code-point lexicographic). -/
def strLt (a b : String) : Bool := charListLt a.data b.data

/-- Non-strict string comparison: `a` precedes or equals `b`. -/
def strLe (a b : String) : Bool := !(strLt b a)

/-- Distinct keys of a column in ascending order: pandas `groupby(col)` with
the default `sort=True` returns one group per distinct key, keys sorted
ascending in the lexicographic string order. -/
def sortedKeys (keys : List String) : List String :=
  List.insertionSort (fun a b => strLe a b = true) keys.dedup

/-- Embeds `df.groupby(col)["total"].sum()`: one (key, sum) pair per distinct key of
the grouping column, in ascending key order; NaN totals are skipped by the
sum. -/
def groupSums (key : Row → String) (rows : List Row) : List (String × ℚ) :=
  (sortedKeys (rows.map key)).map
    (fun k => (k, sumTotal (rows.filter (fun r => key r == k))))

/-- Embeds `Series.idxmax` over (key, value) pairs: the key of the first maximal
value.  pandas raises `ValueError` on an empty series; `none` models that
raised exception. -/
def idxmax {β : Type} [LinearOrder β] (pairs : List (String × β)) :
    Option String :=
  (pairs.foldl
    (fun acc p =>
      match acc with
      | none => some p
      | some q => if q.2 < p.2 then some p else some q)
    none).map Prod.fst

/-- Embeds `self.df.groupby("city")["total"].sum().idxmax()` (line 102). -/
def topCity (rows : List Row) : Option String :=
  idxmax (groupSums (fun r => r.city) rows)

/-- Embeds `self.df.groupby("product_line")["total"].sum().idxmax()` (line 104). -/
def topProduct (rows : List Row) : Option String :=
  idxmax (groupSums (fun r => r.product_line) rows)

/-- Embeds `Series.value_counts()`: occurrence count per distinct value, sorted
descending by count (pandas defaults `sort=True`, `ascending=False`). -/
def valueCounts (vals : List String) : List (String × Nat) :=
  List.insertionSort (fun p q : String × Nat => q.2 ≤ p.2)
    (vals.dedup.map (fun v => (v, (vals.filter (fun w => w == v)).length)))

/-- Embeds `self.df["payment"].value_counts().idxmax()` (line 103). -/
def paymentMode (rows : List Row) : Option String :=
  idxmax (valueCounts (rows.map (fun r => r.payment)))

/-- Embeds `self.df["rating"].mean()` (line 35): mean of the non-NaN ratings; with
zero such ratings pandas returns NaN, modelled as `none`. -/
def ratingMean (rows : List Row) : Option ℚ :=
  let vs := rows.filterMap (fun r => r.rating)
  if vs.length = 0 then none else some (vs.sum / vs.length)

/-- Embeds the guarantee of `self.df.sort_values("date", ascending=False)`
(line 106) under the default `kind="quicksort"`: the sorted frame is some
permutation of the rows that is non-increasing in `date`.  The relative
order of rows with equal dates is implementation-defined — pandas builds the
descending order by reversing an ascending argsort indexer, and quicksort is
not stable — so the embedding constrains exactly what the library
guarantees, no more. -/
def IsSortValuesDateDesc (rows sorted : List Row) : Prop :=
  sorted.Perm rows ∧ sorted.Sorted (fun a b => b.date ≤ a.date)

/-- Embeds `.head(30)["total"].sum()` (lines 106-107): the tail-window sum,
applied to whichever sorted frame line 106 produced. -/
def tailWindowTotal (sorted : List Row) : ℚ := sumTotal (sorted.take 30)

/-- Written from the claim's words for C3's tie clause: a stable descending
sort on `date`, keeping rows with equal dates in original row order.  The
code does not guarantee this order; this claim-side prescription is compared
against the contract `IsSortValuesDateDesc`. -/
def stableSortByDateDesc (rows : List Row) : List Row :=
  List.insertionSort (fun a b : Row => b.date ≤ a.date) rows

/-- Written from the claim's words: the tail-window sum with ties broken by
original row order. -/
def last30TotalClaim (rows : List Row) : ℚ :=
  tailWindowTotal (stableSortByDateDesc rows)

/-- Thirty-one rows sharing a single date; the first row carries total 100,
the remaining thirty carry total 1. -/
def exTieRows : List Row :=
  (List.range 31).map (fun i =>
    { city := "Yangon", product_line := "Health", gender := "Male",
      customer_type := "Member", payment := "Cash", date := 5,
      total := some (if i = 0 then 100 else 1), rating := some 8 })

/-- Second sample row, with an earlier date. -/
def exRow2 : Row :=
  { city := "Mandalay", product_line := "Food", gender := "Female",
    customer_type := "Normal", payment := "Credit", date := 5,
    total := some 50, rating := some 7 }

/-- The 3-row example dataset of the spec: (Yangon, Health, 100),
(Mandalay, Food, 50), (Yangon, Food, 25). -/
def exDataset3 : List Row :=
  [{ city := "Yangon", product_line := "Health", gender := "Male",
     customer_type := "Member", payment := "Cash", date := 1,
     total := some 100, rating := some 9 },
   { city := "Mandalay", product_line := "Food", gender := "Female",
     customer_type := "Normal", payment := "Cash", date := 2,
     total := some 50, rating := some 7 },
   { city := "Yangon", product_line := "Food", gender := "Male",
     customer_type := "Member", payment := "Card", date := 3,
     total := some 25, rating := some 8 }]

/-- Embeds `sort_values()` on a grouped series (line 40): ascending by the summed
value, modelled as a stable sort on the value component. -/
def sortByValue (pairs : List (String × ℚ)) : List (String × ℚ) :=
  List.insertionSort (fun p q : String × ℚ => p.2 ≤ q.2) pairs

/-- Embeds `sales_by_product` (lines 38-50):
`grouped = df.groupby("product_line")["total"].sum().sort_values()`, drawn as
the horizontal bar chart (line 42). -/
def productBarData (rows : List Row) : List (String × ℚ) :=
  sortByValue (groupSums (fun r => r.product_line) rows)

/-- The product-line pie (line 48) is drawn from the same `grouped` series as
the bar, i.e. the value-sorted one. -/
def productPieData (rows : List Row) : List (String × ℚ) :=
  productBarData rows

/-- Embeds `sales_by_city` (lines 52-58): grouped sums with no value sort, drawn as
a pie. -/
def cityPieData (rows : List Row) : List (String × ℚ) :=
  groupSums (fun r => r.city) rows

/-- Embeds `gender_comparison` (lines 60-65): grouped sums with no value sort, drawn
as a bar chart. -/
def genderBarData (rows : List Row) : List (String × ℚ) :=
  groupSums (fun r => r.gender) rows

/-- Embeds `customer_type_breakdown` (lines 67-70): grouped sums with no value sort,
drawn as a bar chart. -/
def customerTypeBarData (rows : List Row) : List (String × ℚ) :=
  groupSums (fun r => r.customer_type) rows

/-- Written from the claim's words for C4: grouped sums listed in original
category (first-appearance) order — the "unsorted" order the claim asserts
for the pie displays. -/
def groupSumsFirstSeen (key : Row → String) (rows : List Row) :
    List (String × ℚ) :=
  (rows.map key).dedup.map
    (fun k => (k, sumTotal (rows.filter (fun r => key r == k))))

/-- Sample row whose product line sells a lot. -/
def exRowA : Row :=
  { city := "Yangon", product_line := "Sports", gender := "Male",
    customer_type := "Member", payment := "Cash", date := 1,
    total := some 100, rating := some 9 }

/-- Sample row whose product line sells little. -/
def exRowB : Row :=
  { city := "Yangon", product_line := "Food", gender := "Male",
    customer_type := "Member", payment := "Cash", date := 2,
    total := some 5, rating := some 8 }

/-- A raw CSV cell of the `total` column before coercion: either an already
numeric value (as parsed by `read_csv`) or free text. -/
inductive Cell where
  | num (q : ℚ)
  | text (s : String)
deriving DecidableEq

/-- Embeds `pd.to_numeric(x, errors="coerce")` on one cell: numeric cells pass
through, text is parsed as a numeral (modelled with the integer parser) and
unparseable text becomes the missing-value marker NaN (`none`) instead of
raising. -/
def toNumericCoerce : Cell → Option ℚ
  | Cell.num q => some q
  | Cell.text s => (s.toInt?).map (fun n => (n : ℚ))

/-- A row as read by `pd.read_csv`, before `load_data` coerces `total`. -/
structure RawRow where
  city : String
  product_line : String
  gender : String
  customer_type : String
  payment : String
  date : Nat
  total : Cell
  rating : Option ℚ
deriving DecidableEq

/-- The `total` coercion of `load_data` (line 24) applied to one raw row: all
other fields are carried over unchanged and the row is kept. -/
def loadRow (r : RawRow) : Row :=
  { city := r.city, product_line := r.product_line, gender := r.gender,
    customer_type := r.customer_type, payment := r.payment, date := r.date,
    total := toNumericCoerce r.total, rating := r.rating }

/-- Embeds `load_data` (lines 19-25) restricted to the `total` coercion step: every
raw row is kept, with `total` coerced cell-wise. -/
def loadData (raws : List RawRow) : List Row := raws.map loadRow

/-- A raw row whose `total` cell holds the unparseable text "abc". -/
def rawBad : RawRow :=
  { city := "Yangon", product_line := "Health", gender := "Male",
    customer_type := "Member", payment := "Cash", date := 1,
    total := Cell.text "abc", rating := some 9 }

/-- A raw row with a numeric `total` cell. -/
def rawGood : RawRow :=
  { city := "Yangon", product_line := "Health", gender := "Male",
    customer_type := "Member", payment := "Cash", date := 2,
    total := Cell.num 100, rating := some 8 }

/-- Python `str.title()` on a character list, tracking whether the previous
character was a letter: the first letter of each alphabetic run is
uppercased, later letters lowercased, other characters left alone. -/
def titleChars : List Char → Bool → List Char
  | [], _ => []
  | c :: cs, prevCased =>
    if c.isAlpha then
      (if prevCased then c.toLower else c.toUpper) :: titleChars cs true
    else
      c :: titleChars cs false

/-- Python `str.title()` as `search_city_and_product` applies it (lines
122-123, 125-126, 131-132) to the entered text and the column values. -/
def pyTitle (s : String) : String := String.mk (titleChars s.data false)

/-- Outcome of one search field: the matched subset's summed total on a hit
(`st.success`), or the not-found warning (`st.warning`) — never an
exception. -/
inductive SearchResult where
  | found (total : ℚ)
  | notFound
deriving DecidableEq

/-- One search field of `search_city_and_product`: the entered text is
title-cased and compared for exact equality against the distinct title-cased
column values (`unique()`); on a hit the matched subset's `total` sum is
reported. -/
def searchKey (key : Row → String) (term : String) (rows : List Row) :
    SearchResult :=
  if ((rows.map (fun r => pyTitle (key r))).dedup).contains (pyTitle term) then
    SearchResult.found
      (sumTotal (rows.filter (fun r => pyTitle (key r) == pyTitle term)))
  else SearchResult.notFound

/-- The city search field (lines 124-129). -/
def searchCity (term : String) (rows : List Row) : SearchResult :=
  searchKey (fun r => r.city) term rows

/-- The product-line search field (lines 130-135). -/
def searchProduct (term : String) (rows : List Row) : SearchResult :=
  searchKey (fun r => r.product_line) term rows

/-- The paired observations of two columns with missing values: pandas
`DataFrame.corr` correlates pairwise-complete observations, dropping a row
whenever either cell is NaN. -/
def pairObs : List (Option ℚ) → List (Option ℚ) → List (ℚ × ℚ)
  | [], [] => []
  | [], _ :: _ => []
  | _ :: _, [] => []
  | some a :: xs, some b :: ys => (a, b) :: pairObs xs ys
  | some _ :: xs, none :: ys => pairObs xs ys
  | none :: xs, _ :: ys => pairObs xs ys

/-- Arithmetic mean of a rational list (with the `x / 0 = 0` convention on
empty input). -/
def meanQ (xs : List ℚ) : ℚ := xs.sum / xs.length

/-- Centered values: each entry minus the column mean. -/
def centered (xs : List ℚ) : List ℚ := xs.map (fun x => x - meanQ xs)

/-- Sum of products of centered values: the numerator kernel of the Pearson
coefficient. -/
def covSum (xs ys : List ℚ) : ℚ :=
  (List.zipWith (fun a b => a * b) (centered xs) (centered ys)).sum

/-- The Pearson correlation of two columns over their pairwise-complete
observations, as `DataFrame.corr` computes each matrix entry.  (`ℝ`-valued
because of the square root; the rational kernels `covSum` and `pairObs` are
executable.) -/
noncomputable def pearson (x y : List (Option ℚ)) : ℝ :=
  ((covSum ((pairObs x y).map Prod.fst) ((pairObs x y).map Prod.snd) : ℚ) : ℝ) /
    Real.sqrt
      (((covSum ((pairObs x y).map Prod.fst) ((pairObs x y).map Prod.fst) : ℚ) : ℝ) *
        ((covSum ((pairObs x y).map Prod.snd) ((pairObs x y).map Prod.snd) : ℚ) : ℝ))

/-- Embeds `self.df.select_dtypes(include=np.number).corr()` (line 82): one row per
numeric column, each entry the Pearson coefficient of a column pair. -/
noncomputable def corrMatrix (cols : List (List (Option ℚ))) : List (List ℝ) :=
  cols.map (fun x => cols.map (fun y => pearson x y))

/-- A numeric column with distinct non-missing values. -/
def exColX : List (Option ℚ) := [some 1, some 2]

/-- A second numeric column. -/
def exColY : List (Option ℚ) := [some 2, some 1]

/-- C2: the filter step returns exactly the rows satisfying the conjunction of
the three categorical memberships and (when a date column exists) the inclusive
date-range condition; an empty selection list on any categorical dimension
yields an empty filtered dataset rather than an error. -/
theorem filterDataset_eq_spec (sel : Selection) (rows : List Row) :
    filterDataset sel rows = filterSpec sel rows ∧
    ((sel.cities = [] ∨ sel.products = [] ∨ sel.genders = []) →
      filterDataset sel rows = []) := by
  have hspec : filterDataset sel rows = filterSpec sel rows := by
    unfold filterDataset filterSpec
    rw [List.filter_filter]
    apply List.filter_congr
    intro r _
    unfold rowMatchesCats
    cases rowMatchesDate sel r <;> cases sel.cities.contains r.city <;>
      cases sel.products.contains r.product_line <;>
        cases sel.genders.contains r.gender <;> rfl
  refine ⟨hspec, ?_⟩
  intro h
  rw [hspec]
  unfold filterSpec
  apply List.eq_nil_iff_forall_not_mem.mpr
  intro r hr
  have := (List.mem_filter.mp hr).2
  rcases h with h | h | h <;> simp [h] at this

/-- Witness for C2 at a concrete selection and dataset. -/
theorem filterDataset_eq_spec_witness :
    filterDataset selEmptyCities [exRow1] = filterSpec selEmptyCities [exRow1] ∧
    filterDataset selEmptyCities [exRow1] = [] :=
  ⟨(filterDataset_eq_spec selEmptyCities [exRow1]).1,
    (filterDataset_eq_spec selEmptyCities [exRow1]).2 (Or.inl rfl)⟩

/-- C8: filtering is order-preserving (the filtered rows form a sublist of the
original, hence appear in the same relative order); in this pure embedding the
input dataset is by construction left unchanged (pandas boolean-mask indexing
returns a new frame and never mutates `df`). -/
theorem filterDataset_sublist (sel : Selection) (rows : List Row) :
    (filterDataset sel rows).Sublist rows :=
  (List.filter_sublist _).trans (List.filter_sublist _)

/-- C9: filtering twice with the same Selection gives the same result as
filtering once. -/
theorem filterDataset_idem (sel : Selection) (rows : List Row) :
    filterDataset sel (filterDataset sel rows) = filterDataset sel rows := by
  have hmem : ∀ a ∈ filterDataset sel rows,
      rowMatchesDate sel a = true ∧ rowMatchesCats sel a = true := by
    intro a ha
    unfold filterDataset at ha
    have h1 := List.mem_filter.mp ha
    have h2 := List.mem_filter.mp h1.1
    exact ⟨h2.2, h1.2⟩
  calc filterDataset sel (filterDataset sel rows)
      = ((filterDataset sel rows).filter (rowMatchesDate sel)).filter
          (rowMatchesCats sel) := rfl
    _ = (filterDataset sel rows).filter (rowMatchesCats sel) := by
          rw [List.filter_eq_self.mpr (fun a ha => (hmem a ha).1)]
    _ = filterDataset sel rows :=
          List.filter_eq_self.mpr (fun a ha => (hmem a ha).2)

/-- The relation `charListLt` is asymmetric. -/
theorem charListLt_asymm :
    ∀ x y, charListLt x y = true → charListLt y x ≠ true := by
  intro x
  induction x with
  | nil =>
    intro y h
    cases y with
    | nil => simp [charListLt] at h
    | cons b bs => simp [charListLt]
  | cons a as ih =>
    intro y h
    cases y with
    | nil => simp [charListLt] at h
    | cons b bs =>
      by_cases h1 : a.toNat < b.toNat
      · have h2 : ¬ b.toNat < a.toNat := by omega
        simp [charListLt, h1, h2]
      · by_cases h2 : b.toNat < a.toNat
        · simp [charListLt, h1, h2] at h
        · simp only [charListLt, if_neg h1, if_neg h2] at h ⊢
          exact ih bs h

/-- Cotransitivity of `charListLt`: a strict comparison passes through any
intermediate list. -/
theorem charListLt_cotrans :
    ∀ x y z, charListLt x z = true →
      charListLt x y = true ∨ charListLt y z = true := by
  intro x
  induction x with
  | nil =>
    intro y z h
    cases z with
    | nil => simp [charListLt] at h
    | cons c cs =>
      cases y with
      | nil => exact Or.inr h
      | cons b bs => exact Or.inl (by simp [charListLt])
  | cons a as ih =>
    intro y z h
    cases z with
    | nil => simp [charListLt] at h
    | cons c cs =>
      cases y with
      | nil => exact Or.inr (by simp [charListLt])
      | cons b bs =>
        by_cases hab : a.toNat < b.toNat
        · exact Or.inl (by simp [charListLt, hab])
        · by_cases hbc : b.toNat < c.toNat
          · exact Or.inr (by simp [charListLt, hbc])
          · by_cases hac : a.toNat < c.toNat
            · exact absurd hac (by omega)
            · by_cases hca : c.toNat < a.toNat
              · simp [charListLt, hac, hca] at h
              · simp only [charListLt, if_neg hac, if_neg hca] at h
                have hba : ¬ b.toNat < a.toNat := by omega
                have hcb : ¬ c.toNat < b.toNat := by omega
                rcases ih bs cs h with hr | hr
                · refine Or.inl ?_
                  simp only [charListLt, if_neg hab, if_neg hba]
                  exact hr
                · refine Or.inr ?_
                  simp only [charListLt, if_neg hbc, if_neg hcb]
                  exact hr

/-- The relation `strLe` is total. -/
theorem strLe_total (a b : String) : strLe a b = true ∨ strLe b a = true := by
  unfold strLe strLt
  by_cases h : charListLt b.data a.data = true
  · refine Or.inr ?_
    have := charListLt_asymm b.data a.data h
    simp [Bool.not_eq_true] at this ⊢
    exact this
  · exact Or.inl (by simp [Bool.not_eq_true] at h ⊢; exact h)

/-- The relation `strLe` is transitive. -/
theorem strLe_trans2 {a b c : String} (hab : strLe a b = true)
    (hbc : strLe b c = true) : strLe a c = true := by
  unfold strLe strLt at hab hbc ⊢
  simp only [Bool.not_eq_true', Bool.not_eq_true] at hab hbc ⊢
  by_cases hca : charListLt c.data a.data = true
  · rcases charListLt_cotrans c.data b.data a.data hca with h | h
    · rw [hbc] at h; cases h
    · rw [hab] at h; cases h
  · simpa [Bool.not_eq_true] using hca

/-- The stable descending sort is one admissible result of the sort contract
of line 106. -/
theorem stableSort_admissible (rows : List Row) :
    IsSortValuesDateDesc rows (stableSortByDateDesc rows) := by
  constructor
  · exact List.perm_insertionSort _ _
  · letI : IsTotal Row (fun a b => b.date ≤ a.date) :=
      ⟨fun a b => Nat.le_total b.date a.date⟩
    letI : IsTrans Row (fun a b => b.date ≤ a.date) :=
      ⟨fun _ _ _ hab hbc => le_trans hbc hab⟩
    exact List.sorted_insertionSort _ _

/-- C3 counterexample: on thirty-one rows sharing one date, the reversed row
order is an admissible result of the date-descending sort (every row ties),
yet its tail-window sum differs from the value the claim's "ties broken by
original row order" clause prescribes — the code does not guarantee the
claimed tie order, and the difference is observable in the sum. -/
theorem tail_window_tie_counterexample :
    IsSortValuesDateDesc exTieRows exTieRows.reverse ∧
    tailWindowTotal exTieRows.reverse ≠ last30TotalClaim exTieRows := by
  refine ⟨⟨exTieRows.reverse_perm, by decide⟩, ?_⟩
  with_unfolding_all decide

/-- C3 amended: the tail-window insight sums `total` over the first 30 rows
of a date-descending permutation of the filtered dataset, the relative order
of rows with equal dates being implementation-defined (pandas' default
quicksort gives no tie-order guarantee); the stable descending sort realizes
that contract, and under every admissible tie order a filtered dataset of at
most 30 rows has tail-window sum equal to the sum over the whole dataset. -/
theorem tail_window_sum_amended (rows sorted : List Row)
    (hsort : IsSortValuesDateDesc rows sorted) :
    IsSortValuesDateDesc rows (stableSortByDateDesc rows) ∧
    (rows.length ≤ 30 → tailWindowTotal sorted = sumTotal rows) := by
  refine ⟨stableSort_admissible rows, ?_⟩
  intro hlen
  have hplen : sorted.length ≤ 30 := by
    rw [List.Perm.length_eq hsort.1]
    exact hlen
  show sumTotal (sorted.take 30) = sumTotal rows
  rw [List.take_of_length_le hplen]
  exact (hsort.1.map contribution).sum_eq

/-- Witness for the amended C3 at a concrete 2-row dataset, taking the stable
sort as the admissible sorted frame. -/
theorem tail_window_sum_amended_witness :
    IsSortValuesDateDesc [exRow1, exRow2]
      (stableSortByDateDesc [exRow1, exRow2]) ∧
    tailWindowTotal (stableSortByDateDesc [exRow1, exRow2]) =
      sumTotal [exRow1, exRow2] :=
  ⟨(tail_window_sum_amended [exRow1, exRow2]
      (stableSortByDateDesc [exRow1, exRow2])
      (stableSort_admissible [exRow1, exRow2])).1,
    (tail_window_sum_amended [exRow1, exRow2]
      (stableSortByDateDesc [exRow1, exRow2])
      (stableSort_admissible [exRow1, exRow2])).2 (by decide)⟩

/-- Sum over the per-key ite contributions of a single row: the row's own
contribution, provided its key occurs exactly once in the key list. -/
theorem sum_map_ite_key (c : ℚ) (k0 : String) :
    ∀ ks : List String, ks.Nodup → k0 ∈ ks →
      (ks.map (fun k => if k0 = k then c else 0)).sum = c := by
  intro ks
  induction ks with
  | nil => intro _ h; cases h
  | cons k ks ih =>
    intro hnd hmem
    by_cases hk : k0 = k
    · subst hk
      have hnotin : k0 ∉ ks := (List.nodup_cons.mp hnd).1
      have hz : (ks.map (fun k => if k0 = k then c else 0)).sum = 0 := by
        apply List.sum_eq_zero
        intro x hx
        obtain ⟨k, hkmem, hkx⟩ := List.mem_map.mp hx
        have : ¬ k0 = k := fun he => hnotin (he ▸ hkmem)
        simp [this] at hkx
        exact hkx.symm
      simp [hz]
    · have hmem' : k0 ∈ ks := by
        cases List.mem_cons.mp hmem with
        | inl h => exact absurd h hk
        | inr h => exact h
      simp only [List.map_cons, List.sum_cons, if_neg hk, zero_add]
      exact ih (List.nodup_cons.mp hnd).2 hmem'

/-- Splitting the grouped sums of `r :: rows` into the head row's contribution
and the grouped sums of `rows`. -/
theorem sumTotal_filter_cons (key : Row → String) (r : Row) (rows : List Row)
    (k : String) :
    sumTotal ((r :: rows).filter (fun x => key x == k)) =
      (if key r = k then contribution r else 0) +
        sumTotal (rows.filter (fun x => key x == k)) := by
  by_cases h : key r = k
  · rw [List.filter_cons, if_pos (by simpa using h), if_pos h]
    simp [sumTotal]
  · rw [List.filter_cons, if_neg (by simpa using h), if_neg h, zero_add]

/-- Partition lemma: summing the per-key group sums over any duplicate-free
key list covering all rows gives the total sum. -/
theorem sum_groupParts (key : Row → String) :
    ∀ (rows : List Row) (ks : List String), ks.Nodup →
      (∀ r ∈ rows, key r ∈ ks) →
      (ks.map (fun k => sumTotal (rows.filter (fun x => key x == k)))).sum =
        sumTotal rows := by
  intro rows
  induction rows with
  | nil =>
    intro ks _ _
    have : ∀ k ∈ ks, sumTotal ([].filter (fun x => key x == k)) = (0 : ℚ) := by
      intro k _
      rfl
    calc (ks.map (fun k => sumTotal ([].filter (fun x => key x == k)))).sum
        = (ks.map (fun _ => (0 : ℚ))).sum := by
          apply congrArg
          exact List.map_congr_left this
      _ = 0 := by simp
      _ = sumTotal [] := rfl
  | cons r rows ih =>
    intro ks hnd hcov
    have hsplit : ∀ k ∈ ks,
        sumTotal ((r :: rows).filter (fun x => key x == k)) =
          (if key r = k then contribution r else 0) +
            sumTotal (rows.filter (fun x => key x == k)) := by
      intro k _
      exact sumTotal_filter_cons key r rows k
    calc (ks.map (fun k => sumTotal ((r :: rows).filter (fun x => key x == k)))).sum
        = (ks.map (fun k => (if key r = k then contribution r else 0) +
            sumTotal (rows.filter (fun x => key x == k)))).sum := by
          exact congrArg List.sum (List.map_congr_left hsplit)
      _ = (ks.map (fun k => if key r = k then contribution r else 0)).sum +
            (ks.map (fun k => sumTotal (rows.filter (fun x => key x == k)))).sum := by
          rw [← List.sum_map_add]
      _ = contribution r + sumTotal rows := by
          rw [sum_map_ite_key (contribution r) (key r) ks hnd
              (hcov r (List.mem_cons_self r rows)),
            ih ks hnd (fun x hx => hcov x (List.mem_cons_of_mem r hx))]
      _ = sumTotal (r :: rows) := by simp [sumTotal]

/-- The key list used by `groupSums` is duplicate-free and covers every row. -/
theorem sortedKeys_sound (key : Row → String) (rows : List Row) :
    (sortedKeys (rows.map key)).Nodup ∧
      ∀ r ∈ rows, key r ∈ sortedKeys (rows.map key) := by
  constructor
  · exact (List.Perm.nodup_iff (List.perm_insertionSort _ _)).mpr
      (List.nodup_dedup _)
  · intro r hr
    unfold sortedKeys
    rw [List.mem_insertionSort, List.mem_dedup]
    exact List.mem_map_of_mem key hr

/-- C7: the per-category grouped sums add up to the total sum for every
grouping column, and on the spec's 3-row example the grouped-by-city sums are
Yangon ↦ 125, Mandalay ↦ 50 with top city Yangon. -/
theorem grouped_sum_partition (key : Row → String) (rows : List Row) :
    ((groupSums key rows).map Prod.snd).sum = sumTotal rows ∧
    groupSums (fun r => r.city) exDataset3 =
      [("Mandalay", 50), ("Yangon", 125)] ∧
    topCity exDataset3 = some "Yangon" := by
  refine ⟨?_, by with_unfolding_all decide, by with_unfolding_all decide⟩
  unfold groupSums
  rw [List.map_map]
  obtain ⟨hnd, hcov⟩ := sortedKeys_sound key rows
  exact sum_groupParts key rows (sortedKeys (rows.map key)) hnd hcov

/-- The grouped product-line series is sorted ascending by summed value. -/
theorem productBar_value_sorted (rows : List Row) :
    (productBarData rows).Pairwise (fun p q => p.2 ≤ q.2) := by
  letI : IsTotal (String × ℚ) (fun p q => p.2 ≤ q.2) :=
    ⟨fun p q => le_total p.2 q.2⟩
  letI : IsTrans (String × ℚ) (fun p q => p.2 ≤ q.2) :=
    ⟨fun _ _ _ hab hbc => le_trans hab hbc⟩
  exact List.sorted_insertionSort _ _

/-- Grouped sums come out in ascending group-key order (pandas groupby
default `sort=True`). -/
theorem groupSums_key_sorted (key : Row → String) (rows : List Row) :
    (groupSums key rows).Pairwise (fun p q => strLe p.1 q.1 = true) := by
  letI : IsTotal String (fun a b => strLe a b = true) := ⟨strLe_total⟩
  letI : IsTrans String (fun a b => strLe a b = true) :=
    ⟨fun _ _ _ hab hbc => strLe_trans2 hab hbc⟩
  unfold groupSums sortedKeys
  exact List.Pairwise.map _ (fun a b h => h)
    (List.sorted_insertionSort (fun a b => strLe a b = true) _)

/-- C4 amended: the product-line grouped sums are sorted ascending by summed
value and that same series feeds both the product bar and the product pie;
the city, gender and customer-type grouped sums are in ascending group-key
order (the pandas groupby default), not value-sorted and not in original
category order. -/
theorem grouped_display_order (rows : List Row) :
    productBarData rows = productPieData rows ∧
    (productBarData rows).Pairwise (fun p q => p.2 ≤ q.2) ∧
    (cityPieData rows).Pairwise (fun p q => strLe p.1 q.1 = true) ∧
    (genderBarData rows).Pairwise (fun p q => strLe p.1 q.1 = true) ∧
    (customerTypeBarData rows).Pairwise (fun p q => strLe p.1 q.1 = true) :=
  ⟨rfl, productBar_value_sorted rows, groupSums_key_sorted _ rows,
    groupSums_key_sorted _ rows, groupSums_key_sorted _ rows⟩

/-- C4 counterexample: on a 2-row dataset whose first product line has the
larger total, the pie for product lines is NOT in the original category
(first-appearance) order the claim asserts. -/
theorem product_pie_order_counterexample :
    productPieData [exRowA, exRowB] ≠
      groupSumsFirstSeen (fun r => r.product_line) [exRowA, exRowB] := by
  with_unfolding_all decide

/-- C1 at the failing input: on the empty filtered dataset the idxmax-based
extractions have no value to return — pandas `Series.idxmax` raises
`ValueError: attempt to get argmax of an empty sequence` there, modelled by
`none` — and the rating mean is NaN (`none`), which `show_kpis` renders as
the undefined string "nan"; only the correlation matrix degrades to an empty
matrix without raising. -/
theorem empty_dataset_aggregations :
    topCity [] = none ∧ paymentMode [] = none ∧ topProduct [] = none ∧
      ratingMean [] = none := by
  refine ⟨by with_unfolding_all decide, by with_unfolding_all decide,
    by with_unfolding_all decide, by with_unfolding_all decide⟩

/-- C5: coercion never drops a row and never raises — a raw row whose `total`
fails numeric parsing is loaded with the missing marker `none` and
contributes 0 to the sum aggregation. -/
theorem load_coercion (r : RawRow) (raws : List RawRow)
    (hbad : toNumericCoerce r.total = none) :
    (loadData (r :: raws)).length = raws.length + 1 ∧
    (loadRow r).total = none ∧
    sumTotal (loadData (r :: raws)) = sumTotal (loadData raws) := by
  refine ⟨by simp [loadData], hbad, ?_⟩
  show sumTotal (loadRow r :: loadData raws) = sumTotal (loadData raws)
  unfold sumTotal
  rw [List.map_cons, List.sum_cons]
  have hz : contribution (loadRow r) = 0 := by
    unfold contribution loadRow
    simp [hbad]
  rw [hz, zero_add]

/-- Witness for C5: the "abc" cell of the spec's example. -/
theorem load_coercion_witness :
    (loadData [rawBad, rawGood]).length = [rawGood].length + 1 ∧
    (loadRow rawBad).total = none ∧
    sumTotal (loadData [rawBad, rawGood]) = sumTotal (loadData [rawGood]) :=
  load_coercion rawBad [rawGood] (by with_unfolding_all decide)

/-- Generic characterization of one search field: `notFound` exactly when the
title-cased term is none of the title-cased values, and the reported sum on a
hit. -/
theorem searchKey_spec (key : Row → String) (term : String) (rows : List Row) :
    (searchKey key term rows = SearchResult.notFound ↔
      pyTitle term ∉ rows.map (fun r => pyTitle (key r))) ∧
    (pyTitle term ∈ rows.map (fun r => pyTitle (key r)) →
      searchKey key term rows = SearchResult.found
        (sumTotal (rows.filter (fun r => pyTitle (key r) == pyTitle term)))) := by
  have hmem : ((rows.map (fun r => pyTitle (key r))).dedup).contains
      (pyTitle term) = true ↔
      pyTitle term ∈ rows.map (fun r => pyTitle (key r)) := by
    simp [List.mem_dedup]
  constructor
  · constructor
    · intro h hin
      unfold searchKey at h
      rw [if_pos (hmem.mpr hin)] at h
      cases h
    · intro hnot
      unfold searchKey
      rw [if_neg]
      intro hc
      exact hnot (hmem.mp hc)
  · intro hin
    unfold searchKey
    rw [if_pos (hmem.mpr hin)]

/-- C6: the search matches by title-case EXACT equality against the distinct
values — it reports `notFound` precisely when the title-cased term equals
none of the title-cased values (so substrings do not match) — and on a hit
reports the matched subset's summed total; in all cases it returns a
`SearchResult`, never an exception. -/
theorem search_exact_match (term : String) (rows : List Row) :
    (searchCity term rows = SearchResult.notFound ↔
      pyTitle term ∉ rows.map (fun r => pyTitle r.city)) ∧
    (searchProduct term rows = SearchResult.notFound ↔
      pyTitle term ∉ rows.map (fun r => pyTitle r.product_line)) ∧
    (pyTitle term ∈ rows.map (fun r => pyTitle r.city) →
      searchCity term rows = SearchResult.found
        (sumTotal (rows.filter (fun r => pyTitle r.city == pyTitle term)))) :=
  ⟨(searchKey_spec (fun r => r.city) term rows).1,
    (searchKey_spec (fun r => r.product_line) term rows).1,
    (searchKey_spec (fun r => r.city) term rows).2⟩

/-- Witness for C6: "Paris" matches no city of the example dataset and yields
the not-found signal; the substring "Yan" of "Yangon" also yields not-found;
the case-normalized full name "yangon" is found with its summed total. -/
theorem search_exact_match_witness :
    searchCity "Paris" exDataset3 = SearchResult.notFound ∧
    searchCity "Yan" exDataset3 = SearchResult.notFound ∧
    searchCity "yangon" exDataset3 = SearchResult.found
      (sumTotal (exDataset3.filter
        (fun r => pyTitle r.city == pyTitle "yangon"))) :=
  ⟨(search_exact_match "Paris" exDataset3).1.mpr (by decide),
    (search_exact_match "Yan" exDataset3).1.mpr (by decide),
    (search_exact_match "yangon" exDataset3).2.2 (by decide)⟩

/-- Swapping the column arguments swaps each paired observation. -/
theorem pairObs_swap : ∀ x y, pairObs y x = (pairObs x y).map Prod.swap
  | [], [] => rfl
  | [], _ :: _ => by simp [pairObs]
  | _ :: _, [] => by simp [pairObs]
  | some _ :: xs, some _ :: ys => by
    simp only [pairObs, List.map_cons, Prod.swap_prod_mk]
    exact congrArg _ (pairObs_swap xs ys)
  | some _ :: xs, none :: ys => by
    simpa [pairObs] using pairObs_swap xs ys
  | none :: xs, some _ :: ys => by
    simpa [pairObs] using pairObs_swap xs ys
  | none :: xs, none :: ys => by
    simpa [pairObs] using pairObs_swap xs ys

/-- Pairing a column with itself keeps exactly its non-missing values,
duplicated. -/
theorem pairObs_self : ∀ x, pairObs x x = (x.filterMap id).map (fun a => (a, a))
  | [] => rfl
  | some a :: xs => by
    simp [pairObs, pairObs_self xs]
  | none :: xs => by
    simpa [pairObs] using pairObs_self xs

/-- The covariance kernel is symmetric. -/
theorem covSum_comm (xs ys : List ℚ) : covSum xs ys = covSum ys xs := by
  unfold covSum
  rw [List.zipWith_comm_of_comm (fun a b => a * b) (fun a b => mul_comm a b)]

/-- The covariance kernel of a column with itself is nonnegative. -/
theorem covSum_self_nonneg (xs : List ℚ) : 0 ≤ covSum xs xs := by
  unfold covSum
  rw [List.zipWith_same]
  apply List.sum_nonneg
  intro x hx
  obtain ⟨a, _, rfl⟩ := List.mem_map.mp hx
  exact mul_self_nonneg a

/-- C10: the correlation matrix is made of the pairwise Pearson coefficients;
each entry is symmetric in its two column arguments, and the diagonal entry
of any column whose non-missing values have a nonzero squared-deviation sum
(nonzero variance) equals 1. -/
theorem corr_symm_diag (cols : List (List (Option ℚ)))
    (x y : List (Option ℚ))
    (hvar : covSum (x.filterMap id) (x.filterMap id) ≠ 0) :
    corrMatrix cols = cols.map (fun c => cols.map (fun d => pearson c d)) ∧
    pearson x y = pearson y x ∧ pearson x x = 1 := by
  refine ⟨rfl, ?_, ?_⟩
  · unfold pearson
    rw [pairObs_swap x y, List.map_map, List.map_map]
    have h1 : (Prod.fst ∘ Prod.swap : ℚ × ℚ → ℚ) = Prod.snd := rfl
    have h2 : (Prod.snd ∘ Prod.swap : ℚ × ℚ → ℚ) = Prod.fst := rfl
    rw [h1, h2,
      covSum_comm ((pairObs x y).map Prod.snd) ((pairObs x y).map Prod.fst),
      mul_comm]
  · unfold pearson
    rw [pairObs_self x, List.map_map, List.map_map]
    have h1 : (Prod.fst ∘ fun a : ℚ => (a, a)) = id := rfl
    have h2 : (Prod.snd ∘ fun a : ℚ => (a, a)) = id := rfl
    rw [h1, h2, List.map_id]
    rw [Real.sqrt_mul_self
      (by exact_mod_cast covSum_self_nonneg (x.filterMap id))]
    apply div_self
    exact_mod_cast hvar

/-- Witness for C10 at two concrete 2-entry columns. -/
theorem corr_symm_diag_witness :
    corrMatrix [exColX, exColY] =
      [exColX, exColY].map (fun c => [exColX, exColY].map (fun d => pearson c d)) ∧
    pearson exColX exColY = pearson exColY exColX ∧
    pearson exColX exColX = 1 :=
  corr_symm_diag [exColX, exColY] exColX exColY (by with_unfolding_all decide)

